import Mathlib

set_option linter.unusedVariables false

/-!
Verification of the cozy-stack VFS HTTP frontend (package `web/files`,
plus the gin-era variant of the same package and the download store)
against its natural-language specification.

The Go source is shallowly embedded: pure helper functions become Lean
functions on `String` / `List Char` / `List Nat`; handler control flow
becomes explicit `Except` sequencing with an `Effects` record tracking
when the blob write is opened and when the request body is consumed.
Machine integers are modelled as `Int` with explicit 64-bit range checks
where Go checks them (`strconv.ParseInt`).  For acceptance-relevant
inputs of the byte-oriented Go functions (base64, decimal parsing,
mime splitting) every accepted character is ASCII, so the char-level
model agrees with Go's byte-level indexing.
-/

/-! ## Error model

`JErr` embeds the `jsonapi` error constructors used by the handlers
(`web/jsonapi`): each carries the offending field name where the Go
constructor takes one.  `VfsErr` embeds the typed sentinel errors of the
`vfs` package that `wrapVfsError` switches on. -/

inductive JErr where
  | conflict : JErr
  | notFound : JErr
  | preconditionFailed (field : String) : JErr
  | invalidParameter (field : String) : JErr
  | invalidAttribute (field : String) : JErr
  | badRequest : JErr
  | internalServerError : JErr
deriving DecidableEq, Repr

inductive VfsErr where
  | docTypeInvalid : VfsErr
  | conflict : VfsErr
  | parentDoesNotExist : VfsErr
  | forbiddenDocMove : VfsErr
  | illegalFilename : VfsErr
  | illegalTime : VfsErr
  | invalidHash : VfsErr
  | contentLengthMismatch : VfsErr
  | fileInTrash : VfsErr
  | nonAbsolutePath : VfsErr
  | dirNotEmpty : VfsErr
deriving DecidableEq, Repr

/-- Go `wrapVfsError` (src/web/files/files.go lines 371-408) restricted to
the typed vfs sentinel errors: the switch mapping each vfs error kind to a
jsonapi error.  (The `jsonapi.Error` / `couchdb.Error` pass-through arms and
the `os.IsExist` / `os.IsNotExist` arms concern Go dynamic types and are not
reachable from a `VfsErr` value.) -/
def wrapVfsError : VfsErr → JErr
  | VfsErr.docTypeInvalid => JErr.invalidAttribute "type"
  | VfsErr.conflict => JErr.conflict
  | VfsErr.parentDoesNotExist => JErr.notFound
  | VfsErr.forbiddenDocMove => JErr.preconditionFailed "dir-id"
  | VfsErr.illegalFilename => JErr.invalidParameter "name"
  | VfsErr.illegalTime => JErr.invalidParameter "UpdatedAt"
  | VfsErr.invalidHash => JErr.preconditionFailed "Content-MD5"
  | VfsErr.contentLengthMismatch => JErr.preconditionFailed "Content-Length"
  | VfsErr.fileInTrash => JErr.badRequest
  | VfsErr.nonAbsolutePath => JErr.badRequest
  | VfsErr.dirNotEmpty => JErr.badRequest

/-- Go `checkIfMatch` (src/web/files/files.go lines 445-459): the revision
precondition.  `ifMatch` is the If-Match header, `revQuery` the `rev` query
parameter (Go returns `""` for an absent header or parameter), `rev` the
stored revision of the target document. -/
def checkIfMatch (ifMatch revQuery rev : String) : Except JErr Unit :=
  let w1 : String := if ifMatch ≠ "" then ifMatch else ""
  let w2 : String := if revQuery ≠ "" ∧ w1 = "" then revQuery else w1
  if w2 ≠ "" ∧ rev ≠ w2 then
    Except.error (JErr.preconditionFailed "If-Match")
  else
    Except.ok ()

/-! ## Go `strconv.ParseInt(s, 10, 64)` -/

/-- Decimal value of a digit list, most significant first, as Go's
`strconv` accumulates it. -/
def decValue (l : List Char) : Nat :=
  l.foldl (fun a c => a * 10 + (c.toNat - 48)) 0

/-- Go `strconv.ParseInt(s, 10, 64)` on the character list of the input:
an optional sign followed by a non-empty run of decimal digits, rejected
when the value does not fit a signed 64-bit integer.  The error payload
is irrelevant to the callers (they replace it), so it is `Unit`.
`goParseSigned` is the digits-and-range phase after the sign has been
stripped, `goSignedVal` the signed value of the digit run. -/
def goSignedVal (neg : Bool) (digits : List Char) : Int :=
  if neg then -(decValue digits : Int) else (decValue digits : Int)

def goParseSigned (neg : Bool) (digits : List Char) : Except Unit Int :=
  if digits = [] ∨ ¬ digits.all Char.isDigit then Except.error ()
  else if goSignedVal neg digits < -(2 ^ 63) ∨ goSignedVal neg digits > 2 ^ 63 - 1 then
    Except.error ()
  else Except.ok (goSignedVal neg digits)

def goParseInt64Chars : List Char → Except Unit Int
  | [] => Except.error ()
  | c :: rest =>
    if c = '-' then goParseSigned true rest
    else if c = '+' then goParseSigned false rest
    else goParseSigned false (c :: rest)

/-- Go `strconv.ParseInt(s, 10, 64)`. -/
def goParseInt64 (s : String) : Except Unit Int :=
  goParseInt64Chars s.data

/-- Go `parseContentLength` (src/web/files/files.go lines 480-491): empty
header means `-1` ("unknown, discover from stream"); otherwise the header
is parsed with `strconv.ParseInt(s, 10, 64)` and a parse failure is an
error. -/
def parseContentLength (s : String) : Except Unit Int :=
  if s = "" then Except.ok (-1)
  else
    match goParseInt64 s with
    | Except.ok n => Except.ok n
    | Except.error _ => Except.error ()

/-- Specification-side characterisation of "`s` is a valid decimal integer
denoting `n` that fits in 64 bits": an optional sign prepended to a
non-empty digit run, with the signed value in range.  Stated structurally
(by decomposition of the character list), independently of the parser's
recursion. -/
def IsGoDecimal (s : String) (n : Int) : Prop :=
  ∃ sign digits : List Char,
    (sign = [] ∨ sign = ['+'] ∨ sign = ['-']) ∧
    s.data = sign ++ digits ∧
    digits ≠ [] ∧
    digits.all Char.isDigit = true ∧
    n = (if sign = ['-'] then -(decValue digits : Int) else (decValue digits : Int)) ∧
    -(2 ^ 63) ≤ n ∧ n ≤ 2 ^ 63 - 1

/-! ## Go `extractMimeAndClass` -/

/-- Go `DefaultContentType` (src/web/middlewares/secure.go line 284,
gin-era files package). -/
def DefaultContentType : String := "application/octet-stream"

/-- Go `strings.Index` restricted to a single-character needle, on the
character list of the haystack: index of the first occurrence, or `none`
(Go returns `-1`).  Go indexes bytes; since the needles used here (`;`
and `/`) are ASCII and UTF-8 continuation bytes are ≥ 0x80, the byte
index always falls on a character boundary and the char-level model
agrees on the cut prefix. -/
def goIndex (l : List Char) (target : Char) : Option Nat :=
  match l with
  | [] => none
  | c :: t => if c = target then some 0 else (goIndex t target).map (fun i => i + 1)

/-- The `contentType[:idx]` / whole-string fallback pattern of Go
`extractMimeAndClass`: the prefix up to the first occurrence of `target`,
or the whole list when absent. -/
def cutAt (l : List Char) (target : Char) : List Char :=
  match goIndex l target with
  | some i => l.take i
  | none => l

/-- Go `extractMimeAndClass` (src/web/middlewares/secure.go lines 684-705,
gin-era files package; the echo-era handlers call the identical
`vfs.ExtractMimeAndClass`): empty content type is replaced by the default,
the mime is the part before the first `;` and the class the part before
the first `/` (both computed from the full content-type string), each
falling back to the whole string when the separator is absent. -/
def extractMimeAndClass (contentType : String) : String × String :=
  let ct : String := if contentType = "" then DefaultContentType else contentType
  (⟨cutAt ct.data ';'⟩, ⟨cutAt ct.data '/'⟩)

/-! ## Go `encoding/base64` (StdEncoding)

`parseMD5Hash` calls `base64.StdEncoding.DecodeString`: standard RFC 4648
alphabet with mandatory `=` padding, carriage returns and newlines ignored
wherever they appear, rejection of an incomplete final quantum, of a `=`
that is not terminal padding, and of data after padding.  Go does not
check that unused trailing bits are zero (non-strict mode), so the byte
formulas below simply drop them. -/

/-- The standard base64 alphabet, as indexed by Go
`base64.StdEncoding`. -/
def b64Alphabet : List Char :=
  "ABCDEFGHIJKLMNOPQRSTUVWXYZabcdefghijklmnopqrstuvwxyz0123456789+/".data

/-- The alphabet character of a 6-bit value (Go `encode` table lookup). -/
def encodeB64Char (n : Nat) : Char := b64Alphabet.getD n 'A'

/-- The 6-bit value of an alphabet character, `none` for a character
outside the alphabet (Go `decodeMap` yielding 0xFF). -/
def decodeB64Char (c : Char) : Option Nat := goIndex b64Alphabet c

/-- Go `base64.StdEncoding` decode loop over 4-character quanta, after
newline stripping: each quantum yields 3 bytes, a final `xx==` quantum 1
byte, a final `xxx=` quantum 2 bytes; anything else — a short final
quantum, a non-alphabet character, a `=` not in terminal position, or
data after padding — is a `CorruptInputError` (`none`). -/
def decodeGroups : List Char → Option (List Nat)
  | [] => some []
  | a :: b :: c :: d :: rest =>
    match decodeB64Char a, decodeB64Char b with
    | some va, some vb =>
      if c = '=' then
        if d = '=' ∧ rest = [] then some [va * 4 + vb / 16] else none
      else
        match decodeB64Char c with
        | some vc =>
          if d = '=' then
            if rest = [] then some [va * 4 + vb / 16, vb % 16 * 16 + vc / 4] else none
          else
            match decodeB64Char d with
            | some vd =>
              match decodeGroups rest with
              | some tl =>
                some ((va * 4 + vb / 16) :: (vb % 16 * 16 + vc / 4) :: (vc % 4 * 64 + vd) :: tl)
              | none => none
            | none => none
        | none => none
    | _, _ => none
  | _ => none

/-- Go `base64.StdEncoding.DecodeString`: `\r` and `\n` are ignored
wherever they appear, then the quantum loop runs. -/
def goDecodeBase64 (s : String) : Option (List Nat) :=
  decodeGroups (s.data.filter (fun c => ! (c == '\n' || c == '\r')))

/-- Go `parseMD5Hash` (src/web/files/files.go lines 461-478): reject a
header whose length is outside 22..24, then base64-decode and reject
unless the digest is exactly 16 bytes. -/
def parseMD5Hash (s : String) : Except Unit (List Nat) :=
  if s.length < 22 ∨ s.length > 24 then Except.error ()
  else
    match goDecodeBase64 s with
    | some md5Sum => if md5Sum.length = 16 then Except.ok md5Sum else Except.error ()
    | none => Except.error ()

/-- Go `base64.StdEncoding.Encode` over 3-byte groups: a full group
yields 4 characters, a final 1-byte group `xx==`, a final 2-byte group
`xxx=`. -/
def encodeGroups : List Nat → List Char
  | [] => []
  | [x] => [encodeB64Char (x / 4), encodeB64Char (x % 4 * 16), '=', '=']
  | [x, y] =>
    [encodeB64Char (x / 4), encodeB64Char (x % 4 * 16 + y / 16), encodeB64Char (y % 16 * 4), '=']
  | x :: y :: z :: rest =>
    encodeB64Char (x / 4) :: encodeB64Char (x % 4 * 16 + y / 16) ::
      encodeB64Char (y % 16 * 4 + z / 64) :: encodeB64Char (z % 64) :: encodeGroups rest

/-- Go `base64.StdEncoding.EncodeToString` on a byte list. -/
def goBase64Encode (bs : List Nat) : String := ⟨encodeGroups bs⟩

/-! ## The file document and the overwrite handler -/

/-- The `vfs.FileDoc` attributes used by the handlers (spec §3): leaf
name, parent directory id, byte length, MD5 digest, mime and class,
executable flag, tags, and the document-store revision token (`Rev()`;
empty on a freshly built, not yet persisted document). -/
structure FileDoc where
  name : String
  dirID : String
  size : Int
  md5 : List Nat
  mime : String
  cls : String
  executable : Bool
  tags : List String
  rev : String
deriving DecidableEq, Repr

/-- Validity of a leaf name per spec §4.1: non-empty, not exactly ".",
and containing no path separator. -/
def validFileName (n : String) : Bool :=
  (n != "") && (n != ".") && ! n.data.contains '/'

/-- Modelled from the spec: `vfs.NewFileDoc` — the `vfs` package is not
under src/.  Per §4.1-§4.2 it validates the leaf name (failing with
`IllegalFilename`) and assembles the FileDoc record from its arguments
(§3); the revision token is assigned later by the document store. -/
def NewFileDoc (name dirID : String) (size : Int) (md5Sum : List Nat)
    (mime cls : String) (executable : Bool) (tags : List String) : Except VfsErr FileDoc :=
  if validFileName name then
    Except.ok ⟨name, dirID, size, md5Sum, mime, cls, executable, tags, ""⟩
  else
    Except.error VfsErr.illegalFilename

/-- The parts of the HTTP request read by `fileDocFromReq` and
`OverwriteFileContentHandler`: the If-Match header, the `rev` query
parameter, the Content-Length, Content-MD5 and Content-Type headers, the
`Executable` query parameter, and the body bytes (absent headers and
parameters are the empty string, as Go's `Get` returns). -/
structure Req where
  ifMatch : String
  revQuery : String
  contentLength : String
  contentMD5 : String
  contentType : String
  executableParam : String
  body : List Nat
deriving DecidableEq, Repr

/-- Go `fileDocFromReq` (src/web/files/files.go lines 410-443): parse
Content-Length (failure → invalid parameter "Content-Length"), parse
Content-MD5 when the header is non-empty (failure → invalid parameter
"Content-MD5"; Go's nil slice for an absent header is `[]`), read the
Executable query parameter and the mime/class split, and build the
document with `vfs.NewFileDoc`.  A `vfs` error from `NewFileDoc` is
wrapped here with `wrapVfsError` rather than at the handler's return
site; this is observationally identical because `wrapVfsError` passes an
already-wrapped `jsonapi.Error` through unchanged (lines 373-375). -/
def fileDocFromReq (req : Req) (name dirID : String) (tags : List String) :
    Except JErr FileDoc :=
  match parseContentLength req.contentLength with
  | Except.error _ => Except.error (JErr.invalidParameter "Content-Length")
  | Except.ok size =>
    match (if req.contentMD5 = "" then Except.ok ([] : List Nat)
           else parseMD5Hash req.contentMD5) with
    | Except.error _ => Except.error (JErr.invalidParameter "Content-MD5")
    | Except.ok md5Sum =>
      match NewFileDoc name dirID size md5Sum
          (extractMimeAndClass req.contentType).1
          (extractMimeAndClass req.contentType).2
          (req.executableParam = "true") tags with
      | Except.ok doc => Except.ok doc
      | Except.error e => Except.error (wrapVfsError e)

/-- Which externally visible effects of an overwrite request have
happened: whether the new blob write was opened (`vfs.CreateFile`) and
whether the request body stream was consumed (`io.Copy`). -/
structure Effects where
  blobOpened : Bool
  bodyConsumed : Bool
deriving DecidableEq, Repr

/-- Modelled from the spec: the content pipeline behind `vfs.CreateFile`
with a non-nil `olddoc` plus the `io.Copy` of the body (§4.2-§4.3) — the
`vfs` package is not under src/.  The declared length (when not -1) is
checked against the actual length (`ContentLengthMismatch`), the declared
digest (when supplied) against the actual digest (`InvalidHash`), and on
success the new document revision points at the new blob.  The digest
function of the content stream and the store-assigned revision are
parameters (external collaborators). -/
def streamAndVerify (digest : List Nat → List Nat) (newdoc : FileDoc) (body : List Nat)
    (newRev : String) : Except JErr FileDoc :=
  if newdoc.size ≠ -1 ∧ newdoc.size ≠ (body.length : Int) then
    Except.error (wrapVfsError VfsErr.contentLengthMismatch)
  else if newdoc.md5 ≠ [] ∧ newdoc.md5 ≠ digest body then
    Except.error (wrapVfsError VfsErr.invalidHash)
  else
    Except.ok { newdoc with size := (body.length : Int), md5 := digest body, rev := newRev }

/-- The effective wanted revision computed by `checkIfMatch`: the
If-Match header when non-empty, else the `rev` query parameter. -/
def wantedRev (req : Req) : String :=
  if req.ifMatch ≠ "" then req.ifMatch else req.revQuery

/-- Whether an `Except` value is a success. -/
def exceptOk {ε α : Type} : Except ε α → Bool
  | Except.ok _ => true
  | Except.error _ => false

/-- Go `OverwriteFileContentHandler` (src/web/files/files.go lines
110-152), given the already loaded target document `olddoc`: build the
replacement document from the request headers with the prior document's
name, parent and tags carried over; check the revision precondition; only
then open the new blob write and consume the request body, which the
`Effects` component records.  The post-check phase is `streamAndVerify`
(modelled from the spec, §4.3). -/
def overwriteFileContent (digest : List Nat → List Nat) (newRev : String)
    (olddoc : FileDoc) (req : Req) : Except JErr FileDoc × Effects :=
  match fileDocFromReq req olddoc.name olddoc.dirID olddoc.tags with
  | Except.error e => (Except.error e, ⟨false, false⟩)
  | Except.ok newdoc =>
    match checkIfMatch req.ifMatch req.revQuery olddoc.rev with
    | Except.error e => (Except.error e, ⟨false, false⟩)
    | Except.ok _ => (streamAndVerify digest newdoc req.body newRev, ⟨true, true⟩)

/-- A fixed digest collaborator for concrete instances. -/
def digestZero : List Nat → List Nat := fun _ => List.replicate 16 0

/-- A concrete stored document. -/
def oldDocEx : FileDoc :=
  ⟨"report.txt", "dir-123", 11, [], "text/plain", "text", false, ["work"], "1-abc"⟩

/-- A concrete overwrite request with a stale If-Match revision and a
malformed Content-Length header. -/
def staleBadReq : Req := ⟨"2-def", "", "x", "", "", "", []⟩

/-- A concrete overwrite request with a stale If-Match revision and
well-formed (absent) content headers. -/
def staleReqEx : Req := ⟨"2-def", "", "", "", "", "", [1, 2, 3]⟩

/-- The document `fileDocFromReq` builds for `staleReqEx` over
`oldDocEx`. -/
def newDocEx : FileDoc :=
  ⟨"report.txt", "dir-123", -1, [], "application/octet-stream", "application",
    false, ["work"], ""⟩

/-! ## The download store (cross-tenant isolation)

The store exercised by `TestDownloadStoreInMemory` (src/unnamed/part_000):
its own source (`newMemStore`, `AddFile`, `GetFile`, `AddArchive`,
`GetArchive`) is not under src/, so it is modelled from the spec's §5
partitioning invariant ("every document and blob key is namespaced by
tenant identity") and the behavior the test asserts. -/

/-- A zip archive request, as in the download-store test: a name and the
file paths it packs. -/
structure Archive where
  name : String
  files : List String
deriving DecidableEq, Repr

/-- Modelled from the spec: the download store state — a fresh-key
counter (standing for the random key generator) and per-kind entry
tables, each entry keyed by the (tenant domain, key) pair (§5).  Expiry
(TTL) is out of scope here. -/
structure DlStore where
  counter : Nat
  fileEntries : List (String × Nat × String)
  archiveEntries : List (String × Nat × Archive)
deriving DecidableEq, Repr

/-- Modelled from the spec: `Store.AddFile` — allocate a fresh key and
record the path under the caller's tenant domain. -/
def addFile (s : DlStore) (domain path : String) : Nat × DlStore :=
  (s.counter,
    { s with
      counter := s.counter + 1
      fileEntries := (domain, s.counter, path) :: s.fileEntries })

/-- Modelled from the spec: `Store.GetFile` — look up the (domain, key)
pair; `none` is the test's "Zero" (absent) result. -/
def getFile (s : DlStore) (domain : String) (key : Nat) : Option String :=
  (s.fileEntries.find? (fun e => e.1 == domain && e.2.1 == key)).map (fun e => e.2.2)

/-- Modelled from the spec: `Store.AddArchive` — allocate a fresh key and
record the archive under the caller's tenant domain. -/
def addArchive (s : DlStore) (domain : String) (a : Archive) : Nat × DlStore :=
  (s.counter,
    { s with
      counter := s.counter + 1
      archiveEntries := (domain, s.counter, a) :: s.archiveEntries })

/-- Modelled from the spec: `Store.GetArchive` — look up the
(domain, key) pair; `none` when absent. -/
def getArchive (s : DlStore) (domain : String) (key : Nat) : Option Archive :=
  (s.archiveEntries.find? (fun e => e.1 == domain && e.2.1 == key)).map (fun e => e.2.2)

/-- Key-freshness invariant of the store: every allocated key is below
the counter (established by `addFile`/`addArchive`, vacuously true of the
empty store). -/
def wfStore (s : DlStore) : Prop :=
  (∀ e ∈ s.fileEntries, e.2.1 < s.counter) ∧ (∀ e ∈ s.archiveEntries, e.2.1 < s.counter)

/-- The empty download store. -/
def emptyDlStore : DlStore := ⟨0, [], []⟩

/-- The archive of the download-store test. -/
def archiveEx : Archive := ⟨"test", ["/archive/foo.jpg", "/archive/bar"]⟩

/-! ## Creation against an active or trashed sibling

The creation/trash engine (`vfs.CreateFile`, `vfs.TrashFile`, …) is not
under src/; it is modelled from spec §4.2, §4.5 and §8. -/

/-- Modelled from the spec: the document record seen by the collision
check — id, leaf name, parent directory id, and whether the document is
in the trash (§3, §4.5). -/
structure VfsDoc where
  id : String
  name : String
  dirID : String
  trashed : Bool
deriving DecidableEq, Repr

/-- Modelled from the spec: the document table visible to the creation
pipeline — the existing directory ids and the documents. -/
structure FsState where
  dirs : List String
  docs : List VfsDoc
deriving DecidableEq, Repr

/-- Modelled from the spec (§4.2): is there an active (non-trashed)
sibling with this name under this parent? -/
def hasActiveSibling (s : FsState) (name dirID : String) : Bool :=
  s.docs.any (fun d => ! d.trashed && d.name == name && d.dirID == dirID)

/-- Modelled from the spec (§4.2): create a document — validate the name
(`IllegalFilename`), check the parent exists (`ParentDoesNotExist`), fail
with `Conflict` when an active sibling already bears the name, otherwise
insert the new document as active. -/
def createDoc (s : FsState) (id name dirID : String) : Except VfsErr FsState :=
  if ¬ validFileName name then Except.error VfsErr.illegalFilename
  else if ¬ s.dirs.contains dirID then Except.error VfsErr.parentDoesNotExist
  else if hasActiveSibling s name dirID then Except.error VfsErr.conflict
  else Except.ok { s with docs := ⟨id, name, dirID, false⟩ :: s.docs }

/-- Modelled from the spec (§4.5): trashing a document marks it trashed
(its effective path is rewritten under the trash subtree). -/
def trashDoc (s : FsState) (id : String) : FsState :=
  { s with docs := s.docs.map (fun d => if d.id = id then { d with trashed := true } else d) }

/-- A one-document table for concrete instances. -/
def fsStateEx : FsState := ⟨["root"], [⟨"id1", "a.txt", "root", false⟩]⟩

/-- The document occupying the (name, parent) slot in `fsStateEx`. -/
def docEx : VfsDoc := ⟨"id1", "a.txt", "root", false⟩

/-! ## Supporting lemmas -/

theorem cutAt_eq_takeWhile (target : Char) (l : List Char) :
    cutAt l target = l.takeWhile (fun c => ! (c = target : Bool)) := by
  induction l with
  | nil => rfl
  | cons c t ih =>
    unfold cutAt at ih ⊢
    have hg : goIndex (c :: t) target =
        (if c = target then some 0 else (goIndex t target).map (fun i => i + 1)) := rfl
    by_cases hc : c = target
    · rw [hg, if_pos hc]
      simp [List.takeWhile_cons, hc]
    · rw [hg, if_neg hc]
      cases ht : goIndex t target with
      | none =>
        rw [ht] at ih
        simp only [Option.map_none']
        show c :: t = (c :: t).takeWhile (fun x => ! (x = target : Bool))
        rw [List.takeWhile_cons, if_pos (by simp [hc])]
        exact congrArg (fun r => c :: r) ih
      | some i =>
        rw [ht] at ih
        simp only [Option.map_some']
        show (c :: t).take (i + 1) = (c :: t).takeWhile (fun x => ! (x = target : Bool))
        rw [List.take_succ_cons, List.takeWhile_cons, if_pos (by simp [hc])]
        exact congrArg (fun r => c :: r) ih

/-! ## Claim C4 -/

/-- Claim C4: when neither the If-Match header nor the `rev` query
parameter is supplied (both empty/absent), the revision precondition
check passes unconditionally, whatever the stored revision is. -/
theorem checkIfMatch_noPrecondition (rev : String) :
    checkIfMatch "" "" rev = Except.ok () := by
  simp [checkIfMatch]

/-! ## Claim C6 -/

/-- Claim C6: the wrapped vfs errors carry kind and offending field:
`IllegalFilename` becomes invalid-parameter on "name", `InvalidHash`
precondition-failed on "Content-MD5", `ContentLengthMismatch`
precondition-failed on "Content-Length". -/
theorem wrapVfsError_fields :
    wrapVfsError VfsErr.illegalFilename = JErr.invalidParameter "name" ∧
    wrapVfsError VfsErr.invalidHash = JErr.preconditionFailed "Content-MD5" ∧
    wrapVfsError VfsErr.contentLengthMismatch = JErr.preconditionFailed "Content-Length" := by
  exact ⟨rfl, rfl, rfl⟩

/-! ## Claim C10 -/

/-- Claim C10: mime/class extraction is total; the empty content type
yields mime "application/octet-stream" and class "application", and a
non-empty content type yields as mime its prefix up to the first `;`
(the whole string when there is none) and as class its prefix up to the
first `/` (the whole string when there is none). -/
theorem extractMimeAndClass_spec (s : String) :
    extractMimeAndClass "" = ("application/octet-stream", "application") ∧
    (s ≠ "" →
      extractMimeAndClass s =
        (⟨s.data.takeWhile (fun c => ! (c = ';' : Bool))⟩,
         ⟨s.data.takeWhile (fun c => ! (c = '/' : Bool))⟩)) := by
  constructor
  · rfl
  · intro hs
    unfold extractMimeAndClass
    rw [if_neg hs]
    simp only [cutAt_eq_takeWhile]

/-- Witness for C10 at the content type "text/plain; charset=utf-8". -/
theorem extractMimeAndClass_spec_witness :
    ("text/plain; charset=utf-8" : String) ≠ "" ∧
    extractMimeAndClass "text/plain; charset=utf-8" =
      (⟨("text/plain; charset=utf-8" : String).data.takeWhile (fun c => ! (c = ';' : Bool))⟩,
       ⟨("text/plain; charset=utf-8" : String).data.takeWhile (fun c => ! (c = '/' : Bool))⟩) :=
  ⟨by decide, (extractMimeAndClass_spec "text/plain; charset=utf-8").2 (by decide)⟩

/-! ## Claim C5 -/

theorem isDigit_ne_sign (c : Char) (h : c.isDigit = true) : ¬ c = '-' ∧ ¬ c = '+' := by
  constructor <;> rintro rfl <;> exact absurd h (by decide)

theorem goParseSigned_ok_iff (neg : Bool) (digits : List Char) (n : Int) :
    goParseSigned neg digits = Except.ok n ↔
      digits ≠ [] ∧ digits.all Char.isDigit = true ∧
      n = goSignedVal neg digits ∧
      -(2 ^ 63) ≤ n ∧ n ≤ 2 ^ 63 - 1 := by
  unfold goParseSigned
  split_ifs with h1 h2
  · constructor
    · intro h
      simp at h
    · rintro ⟨hne, hdig, -⟩
      rcases h1 with h1 | h1
      · exact absurd h1 hne
      · exact absurd hdig h1
  · push_neg at h1
    constructor
    · intro h
      simp at h
    · rintro ⟨-, -, hval, hlo, hhi⟩
      rw [hval] at hlo hhi
      rcases h2 with h2 | h2 <;> omega
  · push_neg at h1 h2
    rw [Except.ok.injEq]
    constructor
    · intro h
      exact ⟨h1.1, h1.2, h.symm, h ▸ h2.1, h ▸ h2.2⟩
    · rintro ⟨-, -, hval, -, -⟩
      exact hval.symm

theorem goParseInt64Chars_ok_iff (l : List Char) (n : Int) :
    goParseInt64Chars l = Except.ok n ↔
      ∃ sign digits : List Char,
        (sign = [] ∨ sign = ['+'] ∨ sign = ['-']) ∧
        l = sign ++ digits ∧
        digits ≠ [] ∧
        digits.all Char.isDigit = true ∧
        n = (if sign = ['-'] then -(decValue digits : Int) else (decValue digits : Int)) ∧
        -(2 ^ 63) ≤ n ∧ n ≤ 2 ^ 63 - 1 := by
  cases l with
  | nil =>
    constructor
    · intro h
      exact Except.noConfusion h
    · rintro ⟨sign, digits, hsign, hdata, hne, -⟩
      rcases List.append_eq_nil.mp hdata.symm with ⟨-, h2⟩
      exact absurd h2 hne
  | cons c rest =>
    by_cases hm : c = '-'
    · subst hm
      rw [show goParseInt64Chars ('-' :: rest) = goParseSigned true rest from rfl,
        goParseSigned_ok_iff]
      constructor
      · rintro ⟨hne, hdig, hval, hlo, hhi⟩
        exact ⟨['-'], rest, Or.inr (Or.inr rfl), rfl, hne, hdig,
          by simpa [goSignedVal] using hval, hlo, hhi⟩
      · rintro ⟨sign, digits, hsign, hdata, hne, hdig, hval, hlo, hhi⟩
        rcases hsign with rfl | rfl | rfl
        · rw [List.nil_append] at hdata
          subst hdata
          rw [List.all_cons, Bool.and_eq_true] at hdig
          exact absurd hdig.1 (by decide)
        · rw [List.cons_append, List.nil_append] at hdata
          exact absurd (List.head_eq_of_cons_eq hdata) (by decide)
        · rw [List.cons_append, List.nil_append] at hdata
          have hr : rest = digits := List.tail_eq_of_cons_eq hdata
          subst hr
          exact ⟨hne, hdig, by simpa [goSignedVal] using hval, hlo, hhi⟩
    · by_cases hp : c = '+'
      · subst hp
        rw [show goParseInt64Chars ('+' :: rest) =
            (if ('+' : Char) = '-' then goParseSigned true rest
             else goParseSigned false rest) from rfl,
          if_neg (by decide), goParseSigned_ok_iff]
        constructor
        · rintro ⟨hne, hdig, hval, hlo, hhi⟩
          exact ⟨['+'], rest, Or.inr (Or.inl rfl), rfl, hne, hdig,
            by simpa [goSignedVal] using hval, hlo, hhi⟩
        · rintro ⟨sign, digits, hsign, hdata, hne, hdig, hval, hlo, hhi⟩
          rcases hsign with rfl | rfl | rfl
          · rw [List.nil_append] at hdata
            subst hdata
            rw [List.all_cons, Bool.and_eq_true] at hdig
            exact absurd hdig.1 (by decide)
          · rw [List.cons_append, List.nil_append] at hdata
            have hr : rest = digits := List.tail_eq_of_cons_eq hdata
            subst hr
            exact ⟨hne, hdig, by simpa [goSignedVal] using hval, hlo, hhi⟩
          · rw [List.cons_append, List.nil_append] at hdata
            exact absurd (List.head_eq_of_cons_eq hdata) (by decide)
      · rw [show goParseInt64Chars (c :: rest) =
            (if c = '-' then goParseSigned true rest
             else if c = '+' then goParseSigned false rest
             else goParseSigned false (c :: rest)) from rfl,
          if_neg hm, if_neg hp, goParseSigned_ok_iff]
        constructor
        · rintro ⟨hne, hdig, hval, hlo, hhi⟩
          exact ⟨[], c :: rest, Or.inl rfl, rfl, hne, hdig,
            by simpa [goSignedVal] using hval, hlo, hhi⟩
        · rintro ⟨sign, digits, hsign, hdata, hne, hdig, hval, hlo, hhi⟩
          rcases hsign with rfl | rfl | rfl
          · rw [List.nil_append] at hdata
            subst hdata
            exact ⟨hne, hdig, by simpa [goSignedVal] using hval, hlo, hhi⟩
          · rw [List.cons_append, List.nil_append] at hdata
            exact absurd (List.head_eq_of_cons_eq hdata) hp
          · rw [List.cons_append, List.nil_append] at hdata
            exact absurd (List.head_eq_of_cons_eq hdata) hm

theorem goParseInt64_ok_iff (s : String) (n : Int) :
    goParseInt64 s = Except.ok n ↔ IsGoDecimal s n := by
  unfold goParseInt64 IsGoDecimal
  exact goParseInt64Chars_ok_iff s.data n

/-- Claim C5 counterexample: the non-empty Content-Length header "-1" is a
valid decimal integer and also parses to `-1`, so "returns -1 exactly when
the header string is empty" fails in its only-if direction. -/
theorem parseContentLength_minusOne_cex :
    parseContentLength "-1" = Except.ok (-1) ∧ ("-1" : String) ≠ "" := by
  constructor
  · rfl
  · decide

/-- Claim C5 (amended): parsing the Content-Length header returns -1 when
the header string is empty; a non-empty header denoting a 64-bit decimal
integer `n` parses to `n` (in particular the non-empty header "-1" also
yields -1); and a non-empty header that is not a valid 64-bit decimal
integer fails with an error (which `fileDocFromReq` surfaces as an
invalid-parameter error on "Content-Length"). -/
theorem parseContentLength_spec (s : String) :
    (s = "" → parseContentLength s = Except.ok (-1)) ∧
    (∀ n : Int, IsGoDecimal s n → parseContentLength s = Except.ok n) ∧
    ((s ≠ "" ∧ ∀ n : Int, ¬ IsGoDecimal s n) → parseContentLength s = Except.error ()) := by
  refine ⟨?_, ?_, ?_⟩
  · intro hs
    subst hs
    rfl
  · intro n hn
    have hs : s ≠ "" := by
      rcases hn with ⟨sign, digits, hsign, hdata, hne, -⟩
      intro h
      subst h
      rcases List.append_eq_nil.mp hdata.symm with ⟨-, h2⟩
      exact absurd h2 hne
    unfold parseContentLength
    rw [if_neg hs, (goParseInt64_ok_iff s n).mpr hn]
  · rintro ⟨hs, hn⟩
    unfold parseContentLength
    rw [if_neg hs]
    cases hg : goParseInt64 s with
    | error e => rfl
    | ok m => exact absurd ((goParseInt64_ok_iff s m).mp hg) (hn m)

/-- Witness for C5 (amended) at the header "123". -/
theorem parseContentLength_spec_witness :
    IsGoDecimal "123" 123 ∧ parseContentLength "123" = Except.ok 123 := by
  have hd : IsGoDecimal "123" 123 :=
    ⟨[], ['1', '2', '3'], Or.inl rfl, by decide, by decide, by decide,
      by decide, by decide, by decide⟩
  exact ⟨hd, (parseContentLength_spec "123").2.1 123 hd⟩

/-! ## Base64 lemmas -/

theorem decodeB64Char_encodeB64Char : ∀ n < 64, decodeB64Char (encodeB64Char n) = some n := by
  decide

theorem encodeB64Char_notPadNl :
    ∀ n < 64, ¬ encodeB64Char n = '\n' ∧ ¬ encodeB64Char n = '\r' ∧ ¬ encodeB64Char n = '=' := by
  decide

theorem encodeGroups_no_newline :
    ∀ (bs : List Nat), (∀ b ∈ bs, b < 256) →
      ∀ c ∈ encodeGroups bs, (! (c == '\n' || c == '\r')) = true
  | [], _ => by
    intro c hc
    simp [encodeGroups] at hc
  | [x], h => by
    intro c hc
    have hx : x < 256 := h x (by simp)
    simp only [encodeGroups, List.mem_cons, List.not_mem_nil, or_false] at hc
    rcases hc with rfl | rfl | rfl | rfl
    · have hp := encodeB64Char_notPadNl (x / 4) (by omega)
      simp [hp.1, hp.2.1]
    · have hp := encodeB64Char_notPadNl (x % 4 * 16) (by omega)
      simp [hp.1, hp.2.1]
    · decide
    · decide
  | [x, y], h => by
    intro c hc
    have hx : x < 256 := h x (by simp)
    have hy : y < 256 := h y (by simp)
    simp only [encodeGroups, List.mem_cons, List.not_mem_nil, or_false] at hc
    rcases hc with rfl | rfl | rfl | rfl
    · have hp := encodeB64Char_notPadNl (x / 4) (by omega)
      simp [hp.1, hp.2.1]
    · have hp := encodeB64Char_notPadNl (x % 4 * 16 + y / 16) (by omega)
      simp [hp.1, hp.2.1]
    · have hp := encodeB64Char_notPadNl (y % 16 * 4) (by omega)
      simp [hp.1, hp.2.1]
    · decide
  | x :: y :: z :: rest, h => by
    intro c hc
    have hx : x < 256 := h x (by simp)
    have hy : y < 256 := h y (by simp)
    have hz : z < 256 := h z (by simp)
    simp only [encodeGroups, List.mem_cons] at hc
    rcases hc with rfl | rfl | rfl | rfl | hc
    · have hp := encodeB64Char_notPadNl (x / 4) (by omega)
      simp [hp.1, hp.2.1]
    · have hp := encodeB64Char_notPadNl (x % 4 * 16 + y / 16) (by omega)
      simp [hp.1, hp.2.1]
    · have hp := encodeB64Char_notPadNl (y % 16 * 4 + z / 64) (by omega)
      simp [hp.1, hp.2.1]
    · have hp := encodeB64Char_notPadNl (z % 64) (by omega)
      simp [hp.1, hp.2.1]
    · exact encodeGroups_no_newline rest (fun b hb => h b (by simp [hb])) c hc

theorem decodeGroups_encodeGroups :
    ∀ (bs : List Nat), (∀ b ∈ bs, b < 256) → decodeGroups (encodeGroups bs) = some bs
  | [], _ => rfl
  | [x], h => by
    have hx : x < 256 := h x (by simp)
    have e1 : decodeB64Char (encodeB64Char (x / 4)) = some (x / 4) :=
      decodeB64Char_encodeB64Char _ (by omega)
    have e2 : decodeB64Char (encodeB64Char (x % 4 * 16)) = some (x % 4 * 16) :=
      decodeB64Char_encodeB64Char _ (by omega)
    simp [encodeGroups, decodeGroups, e1, e2]
    omega
  | [x, y], h => by
    have hx : x < 256 := h x (by simp)
    have hy : y < 256 := h y (by simp)
    have e1 : decodeB64Char (encodeB64Char (x / 4)) = some (x / 4) :=
      decodeB64Char_encodeB64Char _ (by omega)
    have e2 : decodeB64Char (encodeB64Char (x % 4 * 16 + y / 16)) =
        some (x % 4 * 16 + y / 16) :=
      decodeB64Char_encodeB64Char _ (by omega)
    have e3 : decodeB64Char (encodeB64Char (y % 16 * 4)) = some (y % 16 * 4) :=
      decodeB64Char_encodeB64Char _ (by omega)
    have hc3 : ¬ encodeB64Char (y % 16 * 4) = '=' :=
      (encodeB64Char_notPadNl _ (by omega)).2.2
    simp [encodeGroups, decodeGroups, e1, e2, e3, hc3]
    omega
  | x :: y :: z :: rest, h => by
    have hx : x < 256 := h x (by simp)
    have hy : y < 256 := h y (by simp)
    have hz : z < 256 := h z (by simp)
    have e1 : decodeB64Char (encodeB64Char (x / 4)) = some (x / 4) :=
      decodeB64Char_encodeB64Char _ (by omega)
    have e2 : decodeB64Char (encodeB64Char (x % 4 * 16 + y / 16)) =
        some (x % 4 * 16 + y / 16) :=
      decodeB64Char_encodeB64Char _ (by omega)
    have e3 : decodeB64Char (encodeB64Char (y % 16 * 4 + z / 64)) =
        some (y % 16 * 4 + z / 64) :=
      decodeB64Char_encodeB64Char _ (by omega)
    have e4 : decodeB64Char (encodeB64Char (z % 64)) = some (z % 64) :=
      decodeB64Char_encodeB64Char _ (by omega)
    have hc3 : ¬ encodeB64Char (y % 16 * 4 + z / 64) = '=' :=
      (encodeB64Char_notPadNl _ (by omega)).2.2
    have hc4 : ¬ encodeB64Char (z % 64) = '=' :=
      (encodeB64Char_notPadNl _ (by omega)).2.2
    have ih : decodeGroups (encodeGroups rest) = some rest :=
      decodeGroups_encodeGroups rest (fun b hb => h b (by simp [hb]))
    simp [encodeGroups, decodeGroups, e1, e2, e3, e4, hc3, hc4, ih]
    omega

theorem encodeGroups_length :
    ∀ (bs : List Nat), (encodeGroups bs).length = 4 * ((bs.length + 2) / 3)
  | [] => rfl
  | [x] => by simp [encodeGroups]
  | [x, y] => by simp [encodeGroups]
  | x :: y :: z :: rest => by
    simp only [encodeGroups, List.length_cons, encodeGroups_length rest]
    omega

/-! ## Claim C7 -/

/-- Claim C7: parsing a Content-MD5 header either fails or returns a
digest of exactly 16 bytes, and it succeeds exactly when the header has
length between 22 and 24 characters inclusive and is valid standard
base64 whose decoding is 16 bytes long. -/
theorem parseMD5Hash_spec (s : String) :
    (∀ md5Sum, parseMD5Hash s = Except.ok md5Sum → md5Sum.length = 16) ∧
    ((∃ md5Sum, parseMD5Hash s = Except.ok md5Sum) ↔
      (22 ≤ s.length ∧ s.length ≤ 24 ∧
        ∃ bs, goDecodeBase64 s = some bs ∧ bs.length = 16)) := by
  unfold parseMD5Hash
  by_cases hb : s.length < 22 ∨ s.length > 24
  · rw [if_pos hb]
    constructor
    · intro m h
      exact Except.noConfusion h
    · constructor
      · rintro ⟨m, hm⟩
        exact Except.noConfusion hm
      · rintro ⟨h22, h24, -⟩
        rcases hb with hb | hb <;> omega
  · rw [if_neg hb]
    push_neg at hb
    cases hd : goDecodeBase64 s with
    | none =>
      simp only [hd]
      constructor
      · intro m h
        exact Except.noConfusion h
      · constructor
        · rintro ⟨m, hm⟩
          exact Except.noConfusion hm
        · rintro ⟨-, -, bs, hbs, -⟩
          exact Option.noConfusion hbs
    | some bs =>
      simp only [hd]
      by_cases h16 : bs.length = 16
      · rw [if_pos h16]
        constructor
        · intro m h
          cases h
          exact h16
        · constructor
          · intro hm
            exact ⟨hb.1, hb.2, bs, rfl, h16⟩
          · intro hm
            exact ⟨bs, rfl⟩
      · rw [if_neg h16]
        constructor
        · intro m h
          exact Except.noConfusion h
        · constructor
          · rintro ⟨m, hm⟩
            exact Except.noConfusion hm
          · rintro ⟨-, -, bs2, hbs2, h162⟩
            injection hbs2 with hbs2
            subst hbs2
            exact absurd h162 h16

/-- Witness for C7 at the 24-character header encoding sixteen zero
bytes. -/
theorem parseMD5Hash_spec_witness :
    (22 ≤ ("AAAAAAAAAAAAAAAAAAAAAA==" : String).length ∧
      ("AAAAAAAAAAAAAAAAAAAAAA==" : String).length ≤ 24 ∧
      ∃ bs, goDecodeBase64 "AAAAAAAAAAAAAAAAAAAAAA==" = some bs ∧ bs.length = 16) ∧
    ∃ md5Sum, parseMD5Hash "AAAAAAAAAAAAAAAAAAAAAA==" = Except.ok md5Sum := by
  have hr : (22 ≤ ("AAAAAAAAAAAAAAAAAAAAAA==" : String).length ∧
      ("AAAAAAAAAAAAAAAAAAAAAA==" : String).length ≤ 24 ∧
      ∃ bs, goDecodeBase64 "AAAAAAAAAAAAAAAAAAAAAA==" = some bs ∧ bs.length = 16) :=
    ⟨by decide, by decide, List.replicate 16 0, by decide, by decide⟩
  exact ⟨hr, (parseMD5Hash_spec "AAAAAAAAAAAAAAAAAAAAAA==").2.mpr hr⟩

/-! ## Claim C9 -/

/-- Claim C9: encoding any 16-byte digest with standard base64 and
parsing the result with the Content-MD5 parser succeeds and returns the
original bytes; in particular the 24-character padded encoding always
lies inside the parser's 22..24 length window. -/
theorem parseMD5Hash_goBase64Encode (bs : List Nat) (hlen : bs.length = 16)
    (hbytes : ∀ b ∈ bs, b < 256) :
    parseMD5Hash (goBase64Encode bs) = Except.ok bs := by
  have hstrlen : (goBase64Encode bs).length = 24 := by
    show (encodeGroups bs).length = 24
    rw [encodeGroups_length bs, hlen]
  have hdec : goDecodeBase64 (goBase64Encode bs) = some bs := by
    unfold goDecodeBase64 goBase64Encode
    rw [show ((⟨encodeGroups bs⟩ : String)).data = encodeGroups bs from rfl,
      List.filter_eq_self.mpr (encodeGroups_no_newline bs hbytes)]
    exact decodeGroups_encodeGroups bs hbytes
  unfold parseMD5Hash
  rw [if_neg (by rw [hstrlen]; decide)]
  simp only [hdec]
  rw [if_pos hlen]

/-- Witness for C9 at the all-zero digest. -/
theorem parseMD5Hash_goBase64Encode_witness :
    (List.replicate 16 0).length = 16 ∧ (∀ b ∈ List.replicate 16 0, b < 256) ∧
    parseMD5Hash (goBase64Encode (List.replicate 16 0)) = Except.ok (List.replicate 16 0) :=
  ⟨by decide, by decide,
    parseMD5Hash_goBase64Encode (List.replicate 16 0) (by decide) (by decide)⟩

/-! ## Claim C1 -/

theorem checkIfMatch_eq (ifMatch revQuery rev : String) :
    checkIfMatch ifMatch revQuery rev =
      (if (if ifMatch ≠ "" then ifMatch else revQuery) ≠ "" ∧
          rev ≠ (if ifMatch ≠ "" then ifMatch else revQuery) then
        Except.error (JErr.preconditionFailed "If-Match")
      else Except.ok ()) := by
  unfold checkIfMatch
  by_cases h1 : ifMatch = ""
  · subst h1
    by_cases h2 : revQuery = ""
    · subst h2
      simp
    · simp [h2]
  · simp [h1]

theorem checkIfMatch_stale (req : Req) (rev : String)
    (hsup : wantedRev req ≠ "") (hstale : wantedRev req ≠ rev) :
    checkIfMatch req.ifMatch req.revQuery rev =
      Except.error (JErr.preconditionFailed "If-Match") := by
  rw [checkIfMatch_eq,
    show (if req.ifMatch ≠ "" then req.ifMatch else req.revQuery) = wantedRev req from rfl,
    if_pos ⟨hsup, Ne.symm hstale⟩]

/-- Claim C1 counterexample: a request whose If-Match revision "2-def" is
stale (stored revision "1-abc") but whose Content-Length header "x" is
malformed fails with the invalid-parameter error on Content-Length — not
with the Conflict / optimistic-concurrency precondition error — because
the handler parses the content headers before checking the revision
precondition. -/
theorem overwrite_staleRev_cex :
    wantedRev staleBadReq ≠ "" ∧ wantedRev staleBadReq ≠ oldDocEx.rev ∧
    (overwriteFileContent digestZero "2-xyz" oldDocEx staleBadReq).1 =
      Except.error (JErr.invalidParameter "Content-Length") ∧
    JErr.invalidParameter "Content-Length" ≠ JErr.preconditionFailed "If-Match" ∧
    JErr.invalidParameter "Content-Length" ≠ JErr.conflict :=
  ⟨by decide, by decide, rfl, by decide, by decide⟩

/-- Claim C1 (amended): for every overwrite of an existing file that
supplies an expected revision (the If-Match header, else the rev query
parameter) different from the stored revision token, the handler fails
before the new blob write is opened and before any byte of the content
stream is consumed; when the content headers parse successfully the
failure is the optimistic-concurrency precondition error on If-Match (the
spec taxonomy's `Conflict` kind), and when they do not, it is the
corresponding invalid-parameter error, still with no stream or blob
effect. -/
theorem overwrite_staleRev (digest : List Nat → List Nat) (newRev : String)
    (olddoc : FileDoc) (req : Req)
    (hsup : wantedRev req ≠ "") (hstale : wantedRev req ≠ olddoc.rev) :
    (overwriteFileContent digest newRev olddoc req).2 = ⟨false, false⟩ ∧
    (exceptOk (fileDocFromReq req olddoc.name olddoc.dirID olddoc.tags) = true →
      overwriteFileContent digest newRev olddoc req =
        (Except.error (JErr.preconditionFailed "If-Match"), ⟨false, false⟩)) := by
  unfold overwriteFileContent
  cases hf : fileDocFromReq req olddoc.name olddoc.dirID olddoc.tags with
  | error e =>
    constructor
    · rfl
    · intro hok
      simp [exceptOk] at hok
  | ok newdoc =>
    simp only [checkIfMatch_stale req olddoc.rev hsup hstale]
    exact ⟨by simp, fun _ => by simp⟩

/-- Witness for C1 (amended) at a stale, well-formed request. -/
theorem overwrite_staleRev_witness :
    wantedRev staleReqEx ≠ "" ∧ wantedRev staleReqEx ≠ oldDocEx.rev ∧
    ((overwriteFileContent digestZero "2-xyz" oldDocEx staleReqEx).2 = ⟨false, false⟩ ∧
      (exceptOk (fileDocFromReq staleReqEx oldDocEx.name oldDocEx.dirID oldDocEx.tags) = true →
        overwriteFileContent digestZero "2-xyz" oldDocEx staleReqEx =
          (Except.error (JErr.preconditionFailed "If-Match"), ⟨false, false⟩))) :=
  ⟨by decide, by decide,
    overwrite_staleRev digestZero "2-xyz" oldDocEx staleReqEx (by decide) (by decide)⟩

/-! ## Claim C8 -/

theorem NewFileDoc_ok (name dirID : String) (size : Int) (md5Sum : List Nat)
    (mime cls : String) (executable : Bool) (tags : List String) (d : FileDoc)
    (h : NewFileDoc name dirID size md5Sum mime cls executable tags = Except.ok d) :
    d = ⟨name, dirID, size, md5Sum, mime, cls, executable, tags, ""⟩ := by
  unfold NewFileDoc at h
  split_ifs at h with hv
  exact (((Except.ok.injEq _ _).mp h)).symm

/-- Claim C8: the replacement document the overwrite handler builds
carries over the prior document's name, parent directory id and tags
unchanged, while its content-derived attributes — length, digest, mime
and class — come from the request headers. -/
theorem overwrite_framesMetadata (req : Req) (olddoc newdoc : FileDoc)
    (h : fileDocFromReq req olddoc.name olddoc.dirID olddoc.tags = Except.ok newdoc) :
    newdoc.name = olddoc.name ∧ newdoc.dirID = olddoc.dirID ∧ newdoc.tags = olddoc.tags ∧
    parseContentLength req.contentLength = Except.ok newdoc.size ∧
    (req.contentMD5 = "" → newdoc.md5 = []) ∧
    (req.contentMD5 ≠ "" → parseMD5Hash req.contentMD5 = Except.ok newdoc.md5) ∧
    newdoc.mime = (extractMimeAndClass req.contentType).1 ∧
    newdoc.cls = (extractMimeAndClass req.contentType).2 := by
  unfold fileDocFromReq at h
  cases hcl : parseContentLength req.contentLength with
  | error e =>
    simp only [hcl] at h
    exact Except.noConfusion h
  | ok size =>
    simp only [hcl] at h
    by_cases hmd : req.contentMD5 = ""
    · simp only [if_pos hmd] at h
      cases hnf : NewFileDoc olddoc.name olddoc.dirID size []
          (extractMimeAndClass req.contentType).1 (extractMimeAndClass req.contentType).2
          (req.executableParam = "true") olddoc.tags with
      | error e2 =>
        simp only [hnf] at h
        exact Except.noConfusion h
      | ok d =>
        simp only [hnf] at h
        have h2 : Except.ok d = Except.ok newdoc := h
        injection h2 with h3
        subst h3
        rw [NewFileDoc_ok _ _ _ _ _ _ _ _ d hnf]
        exact ⟨rfl, rfl, rfl, rfl, fun _ => rfl, fun hne => absurd hmd hne, rfl, rfl⟩
    · simp only [if_neg hmd] at h
      cases hmp : parseMD5Hash req.contentMD5 with
      | error e2 =>
        simp only [hmp] at h
        exact Except.noConfusion h
      | ok md5Sum =>
        simp only [hmp] at h
        cases hnf : NewFileDoc olddoc.name olddoc.dirID size md5Sum
            (extractMimeAndClass req.contentType).1 (extractMimeAndClass req.contentType).2
            (req.executableParam = "true") olddoc.tags with
        | error e2 =>
          simp only [hnf] at h
          exact Except.noConfusion h
        | ok d =>
          simp only [hnf] at h
          have h2 : Except.ok d = Except.ok newdoc := h
          injection h2 with h3
          subst h3
          rw [NewFileDoc_ok _ _ _ _ _ _ _ _ d hnf]
          exact ⟨rfl, rfl, rfl, rfl, fun h0 => absurd h0 hmd, fun _ => rfl, rfl, rfl⟩

/-- Witness for C8 at `staleReqEx` over `oldDocEx`. -/
theorem overwrite_framesMetadata_witness :
    fileDocFromReq staleReqEx oldDocEx.name oldDocEx.dirID oldDocEx.tags =
      Except.ok newDocEx ∧
    (newDocEx.name = oldDocEx.name ∧ newDocEx.dirID = oldDocEx.dirID ∧
      newDocEx.tags = oldDocEx.tags ∧
      parseContentLength staleReqEx.contentLength = Except.ok newDocEx.size ∧
      (staleReqEx.contentMD5 = "" → newDocEx.md5 = []) ∧
      (staleReqEx.contentMD5 ≠ "" →
        parseMD5Hash staleReqEx.contentMD5 = Except.ok newDocEx.md5) ∧
      newDocEx.mime = (extractMimeAndClass staleReqEx.contentType).1 ∧
      newDocEx.cls = (extractMimeAndClass staleReqEx.contentType).2) :=
  ⟨rfl, overwrite_framesMetadata staleReqEx oldDocEx newDocEx rfl⟩

/-! ## Claim C2 -/

theorem find?_entry_none {α : Type} (l : List (String × Nat × α)) (dom : String) (k : Nat)
    (h : ∀ e ∈ l, e.2.1 ≠ k) :
    l.find? (fun e => e.1 == dom && e.2.1 == k) = none := by
  rw [List.find?_eq_none]
  intro e he hp
  rw [Bool.and_eq_true, beq_iff_eq, beq_iff_eq] at hp
  exact h e he hp.2

theorem find?_cons_other {α : Type} (l : List (String × Nat × α)) (x : String × Nat × α)
    (dom : String) (k : Nat) (h : x.1 ≠ dom) :
    (x :: l).find? (fun e => e.1 == dom && e.2.1 == k) =
      l.find? (fun e => e.1 == dom && e.2.1 == k) := by
  rw [List.find?_cons_of_neg]
  simp [h]

/-- Claim C2: cross-tenant isolation of the download store: a key
allocated by storing a file path or an archive under tenant A's context
looks up as absent under any distinct tenant B's context, and an
operation under A leaves every lookup under B unchanged — entries are
structurally partitioned by the (tenant domain, key) pair. -/
theorem store_crossTenantIsolation (s : DlStore) (A B path : String) (a : Archive)
    (hw : wfStore s) (hne : A ≠ B) :
    getFile (addFile s A path).2 B (addFile s A path).1 = none ∧
    getArchive (addArchive s A a).2 B (addArchive s A a).1 = none ∧
    (∀ k, getFile (addFile s A path).2 B k = getFile s B k) ∧
    (∀ k, getArchive (addFile s A path).2 B k = getArchive s B k) ∧
    (∀ k, getArchive (addArchive s A a).2 B k = getArchive s B k) ∧
    (∀ k, getFile (addArchive s A a).2 B k = getFile s B k) := by
  refine ⟨?_, ?_, ?_, fun k => rfl, ?_, fun k => rfl⟩
  · unfold getFile addFile
    rw [find?_cons_other _ _ _ _ hne,
      find?_entry_none _ _ _ (fun e he => Nat.ne_of_lt (hw.1 e he))]
    rfl
  · unfold getArchive addArchive
    rw [find?_cons_other _ _ _ _ hne,
      find?_entry_none _ _ _ (fun e he => Nat.ne_of_lt (hw.2 e he))]
    rfl
  · intro k
    unfold getFile addFile
    rw [find?_cons_other _ _ _ _ hne]
  · intro k
    unfold getArchive addArchive
    rw [find?_cons_other _ _ _ _ hne]

/-- Witness for C2, replaying the scenario of
`TestDownloadStoreInMemory` on the empty store. -/
theorem store_crossTenantIsolation_witness :
    wfStore emptyDlStore ∧
    ("alice.cozycloud.local" : String) ≠ "bob.cozycloud.local" ∧
    getFile (addFile emptyDlStore "alice.cozycloud.local" "/test/random/path.txt").2
      "bob.cozycloud.local"
      (addFile emptyDlStore "alice.cozycloud.local" "/test/random/path.txt").1 = none ∧
    getArchive (addArchive emptyDlStore "alice.cozycloud.local" archiveEx).2
      "bob.cozycloud.local"
      (addArchive emptyDlStore "alice.cozycloud.local" archiveEx).1 = none := by
  have hw : wfStore emptyDlStore :=
    ⟨fun e he => absurd he (List.not_mem_nil e), fun e he => absurd he (List.not_mem_nil e)⟩
  exact ⟨hw, by decide,
    (store_crossTenantIsolation emptyDlStore "alice.cozycloud.local" "bob.cozycloud.local"
      "/test/random/path.txt" archiveEx hw (by decide)).1,
    (store_crossTenantIsolation emptyDlStore "alice.cozycloud.local" "bob.cozycloud.local"
      "/test/random/path.txt" archiveEx hw (by decide)).2.1⟩

/-! ## Claim C3 -/

/-- Claim C3: creating a document whose valid name collides with an
active (non-trashed) sibling under the same existing parent fails with
`Conflict`; after the blocking sibling is trashed, creating a document
with the same (name, parent) succeeds. -/
theorem create_conflict_then_trash (s : FsState) (d : VfsDoc) (id2 name dirID : String)
    (hname : validFileName name = true)
    (hdir : s.dirs.contains dirID = true)
    (hmem : d ∈ s.docs) (hactive : d.trashed = false)
    (hdn : d.name = name) (hdd : d.dirID = dirID)
    (huniq : ∀ d2 ∈ s.docs,
      d2.trashed = false → d2.name = name → d2.dirID = dirID → d2.id = d.id) :
    createDoc s id2 name dirID = Except.error VfsErr.conflict ∧
    ∃ s2, createDoc (trashDoc s d.id) id2 name dirID = Except.ok s2 := by
  have hcol : hasActiveSibling s name dirID = true := by
    unfold hasActiveSibling
    rw [List.any_eq_true]
    exact ⟨d, hmem, by simp [hactive, hdn, hdd]⟩
  have hcol2 : hasActiveSibling (trashDoc s d.id) name dirID = false := by
    unfold hasActiveSibling trashDoc
    rw [List.any_eq_false]
    intro d2 hd2
    rw [List.mem_map] at hd2
    obtain ⟨d0, hd0, rfl⟩ := hd2
    by_cases hid : d0.id = d.id
    · rw [if_pos hid]
      simp
    · rw [if_neg hid]
      intro hcontra
      rw [Bool.and_eq_true, Bool.and_eq_true, Bool.not_eq_true', beq_iff_eq, beq_iff_eq]
        at hcontra
      exact hid (huniq d0 hd0 hcontra.1.1 hcontra.1.2 hcontra.2)
  constructor
  · unfold createDoc
    rw [if_neg (not_not_intro hname), if_neg (not_not_intro hdir), if_pos hcol]
  · unfold createDoc
    rw [if_neg (not_not_intro hname),
      if_neg (by exact not_not_intro hdir),
      if_neg (by simp [hcol2])]
    exact ⟨_, rfl⟩

/-- Witness for C3 on a one-document table: creating "a.txt" under
"root" conflicts with the active document, then succeeds after trashing
it. -/
theorem create_conflict_then_trash_witness :
    validFileName "a.txt" = true ∧ fsStateEx.dirs.contains "root" = true ∧
    docEx ∈ fsStateEx.docs ∧ docEx.trashed = false ∧
    (createDoc fsStateEx "id2" "a.txt" "root" = Except.error VfsErr.conflict ∧
      ∃ s2, createDoc (trashDoc fsStateEx docEx.id) "id2" "a.txt" "root" = Except.ok s2) :=
  ⟨by decide, by decide, by decide, by decide,
    create_conflict_then_trash fsStateEx docEx "id2" "a.txt" "root" (by decide) (by decide)
      (by decide) (by decide) (by decide) (by decide) (by decide)⟩
